import Mathlib

/-!
Shallow embedding of the multi-agent orchestration core of
`GenAi-Day3Finally/day3bestcode.py` (StateStore, CircuitBreaker, retry_async,
the five agents Retriever/Enricher/Planner/Executor/Notifier, and
`Orchestrator.run_flow`), together with theorems settling the claims about it.

Modelling conventions:
- Python values stored in the state store / agent payloads are embedded as the
  inductive `Val` (None, bool, int, str, list, dict).
- Python dicts are association lists with insert-or-update semantics
  (insertion order preserved, matching CPython).
- Wall-clock time and backoff durations are rationals; every call of
  `time.time()` is an explicit `now` parameter.
- Randomness (tool failures, jitter, uuid4, random ids) is an explicit oracle:
  each external tool is a function from its invocation index (a cursor counting
  calls made so far) and its argument to a result-or-error; jitter is a
  function from the attempt number to a rational; fresh uuids and random
  ticket/order numbers are explicit parameters.
- `async` is erased: cooperative steps are sequenced explicitly; agent `run`
  methods become state-passing functions. An exception escaping an agent is an
  `Except.error` carrying the Python exception text and the state at the point
  of the raise.
- The audit trail is modelled by the sequence of audited event names; metric
  counters are carried explicitly.
-/

namespace DayThree

/-- Embedded Python value (the value space used by the orchestrator's
StateStore and agent payloads). -/
inductive Val where
  | vnone
  | vbool (b : Bool)
  | vnat (n : Nat)
  | vstr (s : String)
  | vlist (l : List Val)
  | vdict (l : List (String × Val))

/-- Python truthiness for embedded values (`None`, `0`, `""`, `[]`, `{}` are
falsy, everything else truthy). -/
def truthy : Val → Bool
  | .vnone => false
  | .vbool b => b
  | .vnat n => n != 0
  | .vstr s => s != ""
  | .vlist l => !l.isEmpty
  | .vdict l => !l.isEmpty

/-- Python `d[k]` lookup on an embedded dict (association list). -/
def dlookup : List (String × Val) → String → Option Val
  | [], _ => none
  | (k', v) :: t, k => if k' = k then some v else dlookup t k

/-- Python `d[k] = v` on an embedded dict: update in place if the key exists,
otherwise append (CPython insertion-order semantics). -/
def dset : List (String × Val) → String → Val → List (String × Val)
  | [], k, v => [(k, v)]
  | (k', v') :: t, k, v => if k' = k then (k, v) :: t else (k', v') :: dset t k v

/-- Python `d.get(k, default)` on an embedded dict. -/
def dGet (d : List (String × Val)) (k : String) (dflt : Val) : Val :=
  (dlookup d k).getD dflt

/-- Python `==` between an embedded value and a string literal (a non-string
value never equals a string). -/
def Val.eqStr : Val → String → Bool
  | .vstr t, s => t == s
  | _, _ => false

/-- The string a `Val` contributes when used where the source expects `str`
(identity on strings; non-strings never reach such positions in the flows). -/
def asStr : Val → String
  | .vstr s => s
  | _ => ""

/-- The list of strings a `Val` contributes where the source expects a list of
document strings. -/
def toStrList : Val → List String
  | .vlist l => l.filterMap (fun x => match x with | .vstr s => some s | _ => none)
  | _ => []

/-- Python `str(...)` of an embedded value as interpolated into notification
messages (shallow: nested collection elements are shown via `asStr`; quoting
of inner strings is omitted — no claim inspects message texts). -/
def pyShow : Val → String
  | .vstr s => s
  | .vnone => "None"
  | .vnat n => toString n
  | .vbool b => if b then "True" else "False"
  | .vlist l => "[" ++ String.intercalate ", " (l.map asStr) ++ "]"
  | .vdict l =>
      "\x7b" ++ String.intercalate ", " (l.map (fun kv => kv.1 ++ ": " ++ asStr kv.2)) ++ "\x7d"

/-- `Optional[str]` to embedded value (`None` ↦ `vnone`). -/
def optStrVal : Option String → Val
  | none => Val.vnone
  | some s => Val.vstr s

/-! ### StateStore (source lines 90–113)

`checkpoint` audits `checkpoint_created` and `rollback` audits
`checkpoint_rollback`; auditing lives in `OrchState` wrappers below, the pure
store semantics is here. -/

/-- Update in the checkpoint map with Python dict semantics. -/
def cset : List (String × List (String × Val)) → String → List (String × Val) →
    List (String × List (String × Val))
  | [], k, v => [(k, v)]
  | (k', v') :: t, k, v => if k' = k then (k, v) :: t else (k', v') :: cset t k v

/-- Lookup in the checkpoint map. -/
def clookup : List (String × List (String × Val)) → String → Option (List (String × Val))
  | [], _ => none
  | (k', v) :: t, k => if k' = k then some v else clookup t k

/-- `StateStore`: the mutable key/value store `_store` plus the named
checkpoint snapshots `_checkpoints`. -/
structure StateStore where
  store : List (String × Val)
  checkpoints : List (String × List (String × Val))

/-- `StateStore.set(key, value)`. -/
def StateStore.set (s : StateStore) (k : String) (v : Val) : StateStore :=
  { s with store := dset s.store k v }

/-- `StateStore.get(key, default)`. -/
def StateStore.get (s : StateStore) (k : String) (dflt : Val) : Val :=
  (dlookup s.store k).getD dflt

/-- `StateStore.checkpoint(name)`: `self._checkpoints[name] = dict(self._store)`
(a copy of the live store, stored under `name`). -/
def StateStore.checkpoint (s : StateStore) (name : String) : StateStore :=
  { s with checkpoints := cset s.checkpoints name s.store }

/-- `StateStore.rollback(name)`: replace the live store wholesale with the
named snapshot; if the name is unknown, log a warning and leave the store
unchanged. -/
def StateStore.rollback (s : StateStore) (name : String) : StateStore :=
  match clookup s.checkpoints name with
  | some snap => { s with store := snap }
  | none => s

/-! ### CircuitBreaker (source lines 64–85) -/

/-- `CircuitBreaker`: consecutive-failure counter `_fails` and open-until
timestamp `_open_until` (0.0 meaning "never opened", as in the source's
float-truthiness check). -/
structure CircuitBreaker where
  name : String
  fail_threshold : Nat
  recovery_timeout : ℚ
  fails : Nat
  open_until : ℚ

/-- `CircuitBreaker.record_success()`: reset the counter and clear the open
timestamp. -/
def CircuitBreaker.record_success (c : CircuitBreaker) : CircuitBreaker :=
  { c with fails := 0, open_until := 0 }

/-- `CircuitBreaker.record_failure()` at wall-clock time `now`: increment the
counter; when it reaches `fail_threshold`, open until `now + recovery_timeout`. -/
def CircuitBreaker.record_failure (c : CircuitBreaker) (now : ℚ) : CircuitBreaker :=
  let f := c.fails + 1
  if c.fail_threshold ≤ f then
    { c with fails := f, open_until := now + c.recovery_timeout }
  else
    { c with fails := f }

/-- `CircuitBreaker.is_open()` at wall-clock time `now`:
`if self._open_until and time.time() < self._open_until` — the first conjunct
is Python float truthiness (`0.0` is falsy). -/
def CircuitBreaker.isOpen (c : CircuitBreaker) (now : ℚ) : Bool :=
  decide (c.open_until ≠ 0) && decide (now < c.open_until)

/-- One call against a `CircuitBreaker` in a call trace: a `record_failure`
at a given time, a `record_success`, or an `is_open` check at a given time. -/
inductive CBOp where
  | failAt (now : ℚ)
  | succeeded
  | checkAt (now : ℚ)

/-- State reached after a sequence of `CircuitBreaker` calls. An `is_open`
check reads the clock and the fields but mutates nothing. -/
def runCB (c : CircuitBreaker) : List CBOp → CircuitBreaker
  | [] => c
  | .failAt t :: ops => runCB (c.record_failure t) ops
  | .succeeded :: ops => runCB c.record_success ops
  | .checkAt _ :: ops => runCB c ops

/-- State after a run of consecutive `record_failure` calls at the given
times. -/
def applyFails (c : CircuitBreaker) (ts : List ℚ) : CircuitBreaker :=
  ts.foldl (fun a t => a.record_failure t) c

/-! ### retry_async (source lines 41–59)

The wrapped coroutine is an oracle `f : Nat → Except String α` giving the
outcome of its `k`-th invocation (0-based). `retryGo f iB mB jit attempt left`
is the loop with `attempt` failures recorded so far and `left` retries still
allowed (`left = retries - attempt`); it returns the final outcome, the number
of invocations of `f` it performed, and the backoff sleeps it executed, in
order. `jit k` is the jitter `0.9 + random.random() * 0.2` drawn before the
sleep that follows the `k`-th failed attempt. -/

/-- Whether an `Except` outcome is a raised exception. -/
def isErr : Except String α → Bool
  | .error _ => true
  | .ok _ => false

/-- Whether an `Except` outcome is a normal return. -/
def isOk : Except String α → Bool
  | .error _ => false
  | .ok _ => true

/-- The retry loop of `retry_async`. -/
def retryGo (f : Nat → Except String α) (iB mB : ℚ) (jit : Nat → ℚ) :
    Nat → Nat → Except String α × Nat × List ℚ
  | attempt, 0 =>
    (match f attempt with
     | .ok a => (.ok a, 1, [])
     | .error e => (.error e, 1, []))
  | attempt, left + 1 =>
    (match f attempt with
     | .ok a => (.ok a, 1, [])
     | .error _ =>
       let backoff := min mB (iB * 2 ^ attempt * jit (attempt + 1))
       let r := retryGo f iB mB jit (attempt + 1) left
       (r.1, r.2.1 + 1, backoff :: r.2.2))

/-- `retry_async(func, retries, initial_backoff, max_backoff)` over the
invocation-outcome oracle `f`: outcome, number of invocations, sleeps. -/
def retryAsync (f : Nat → Except String α) (retries : Nat) (iB mB : ℚ)
    (jit : Nat → ℚ) : Except String α × Nat × List ℚ :=
  retryGo f iB mB jit 0 retries

/-! ### AgentResult, tool oracles, orchestrator state -/

/-- `AgentResult`: the uniform agent return contract. -/
structure AgentResult where
  ok : Bool
  data : List (String × Val)
  error : Option String

/-- Outcomes of the mocked external tools, as oracles indexed by a per-tool
invocation cursor and the call argument: `fetch` is `tool_fetch_documents`,
`llm` is `tool_call_llm`, `alert` is `tool_send_alert`. -/
structure ToolEnv where
  fetch : Nat → String → Except String (List String)
  llm : Nat → String → Except String String
  alert : Nat → String → Except String Bool
  jitter : Nat → ℚ

/-- The orchestrator-owned mutable world: the shared `StateStore`, the
`doc_service` circuit breaker, the audit trail (event names, in order), the
`METRICS` counters, and the tool invocation cursors. -/
structure OrchState where
  state : StateStore
  cb : CircuitBreaker
  auditEvents : List String
  flowsStarted : Nat
  flowsSucceeded : Nat
  flowsFailed : Nat
  fetchCount : Nat
  llmCount : Nat
  alertCount : Nat

/-- `audit(event, payload)`: append the event to the audit trail. -/
def auditE (st : OrchState) (e : String) : OrchState :=
  { st with auditEvents := st.auditEvents ++ [e] }

/-- `self.state.set(key, value)` through the orchestrator state. -/
def setKey (st : OrchState) (k : String) (v : Val) : OrchState :=
  { st with state := st.state.set k v }

/-- `self.state.get(key, default)` through the orchestrator state. -/
def getKey (st : OrchState) (k : String) (dflt : Val) : Val :=
  st.state.get k dflt

/-- `self.state.checkpoint(name)` (audits `checkpoint_created`). -/
def doCheckpoint (st : OrchState) (name : String) : OrchState :=
  auditE { st with state := st.state.checkpoint name } "checkpoint_created"

/-- `self.state.rollback(name)` (audits `checkpoint_rollback` when the
checkpoint exists; warning-only no-op otherwise). -/
def doRollback (st : OrchState) (name : String) : OrchState :=
  match clookup st.state.checkpoints name with
  | some _ => auditE { st with state := st.state.rollback name } "checkpoint_rollback"
  | none => st

/-- The world as built by `Orchestrator.__init__`: empty store, no
checkpoints, `doc_service` breaker with `fail_threshold=4`,
`recovery_timeout=20.0`, empty audit trail, zeroed metrics and cursors. -/
def initState : OrchState :=
  { state := ⟨[], []⟩
    cb := ⟨"doc_service", 4, 20, 0, 0⟩
    auditEvents := []
    flowsStarted := 0, flowsSucceeded := 0, flowsFailed := 0
    fetchCount := 0, llmCount := 0, alertCount := 0 }

/-! ### PlannerAgent decision logic (source lines 201–213) -/

/-- Whether `needle` occurs at the start of `hay` (character lists). -/
def startsWithChars : List Char → List Char → Bool
  | [], _ => true
  | _ :: _, [] => false
  | a :: as, b :: bs => a == b && startsWithChars as bs

/-- Whether `needle` occurs anywhere in `hay` (character lists): Python's
`needle in hay`. -/
def hasSubChars (needle : List Char) : List Char → Bool
  | [] => needle.isEmpty
  | c :: t => startsWithChars needle (c :: t) || hasSubChars needle t

/-- Python `w in s` substring test. -/
def strHasSub (s w : String) : Bool :=
  hasSubChars w.data s.data

/-- Python `s.lower()` (ASCII-faithful, which covers the source's keywords). -/
def pyLower (s : String) : String :=
  ⟨s.data.map Char.toLower⟩

/-- The escalation keywords checked first by the planner. -/
def escalationWords : List String := ["alert", "fraud", "risk", "urgent"]

/-- The opportunity keywords checked second by the planner. -/
def opportunityWords : List String := ["opportunity", "buy", "recommend"]

/-- The planner's decision on a summary: `escalate` if any escalation keyword
occurs in the lower-cased summary, else `recommend_trade` if any opportunity
keyword occurs, else the default `inform`. -/
def plannerDecision (summary : String) : String :=
  if escalationWords.any (fun w => strHasSub (pyLower summary) w) then "escalate"
  else if opportunityWords.any (fun w => strHasSub (pyLower summary) w) then "recommend_trade"
  else "inform"

/-! ### The five agents (source lines 143–258)

Each `run` method becomes a function from the orchestrator world and the
payload fields the orchestrator passes to an `AgentResult` plus the new world.
The agents catch their own tool failures, so none of these functions raises. -/

/-- `RetrieverAgent.run({"query": query})` at wall-clock time `now`. -/
def retrieverRun (env : ToolEnv) (now : ℚ) (st : OrchState) (query : String) :
    AgentResult × OrchState :=
  if st.cb.isOpen now then
    (⟨true, [("docs", getKey st "cached_docs" (Val.vlist [])),
             ("source", Val.vstr "cache")], none⟩, st)
  else
    match retryAsync (fun k => env.fetch (st.fetchCount + k) query) 3 0.2 5 env.jitter with
    | (Except.ok docs, n, _) =>
      let st1 := { st with fetchCount := st.fetchCount + n, cb := st.cb.record_success }
      let st2 := setKey st1 "cached_docs" (Val.vlist (docs.map Val.vstr))
      let st3 := auditE st2 "retriever_success"
      (⟨true, [("docs", Val.vlist (docs.map Val.vstr)), ("source", Val.vstr "live")], none⟩, st3)
    | (Except.error e, n, _) =>
      let st1 := { st with fetchCount := st.fetchCount + n, cb := st.cb.record_failure now }
      let st2 := auditE st1 "retriever_error"
      (⟨false, [("docs", getKey st2 "cached_docs" (Val.vlist [])),
                ("source", Val.vstr "fallback")], some e⟩, st2)

/-- `EnricherAgent.run({"docs": docs})`. -/
def enricherRun (env : ToolEnv) (st : OrchState) (docsV : Val) : AgentResult × OrchState :=
  if truthy docsV = false then
    (⟨false, [("enriched", Val.vlist [])], some "no_docs"⟩, st)
  else
    let docs := toStrList docsV
    let prompt := "Summarize: " ++ String.intercalate " " (docs.take 5)
    match retryAsync (fun k => env.llm (st.llmCount + k) prompt) 2 0.3 5 env.jitter with
    | (Except.ok summary, n, _) =>
      let st1 := { st with llmCount := st.llmCount + n }
      let st2 := auditE st1 "enricher_success"
      let st3 := setKey st2 "last_summary" (Val.vstr summary)
      (⟨true, [("summary", Val.vstr summary)], none⟩, st3)
    | (Except.error e, n, _) =>
      let st1 := { st with llmCount := st.llmCount + n }
      let st2 := auditE st1 "enricher_error"
      let joined := String.intercalate " " docs
      let naive := joined.take 240 ++ (if 240 < joined.length then "..." else "")
      (⟨false, [("summary", Val.vstr naive)], some e⟩, st2)

/-- `PlannerAgent.run({"summary": summary})`: pure decision, no tool call, no
failure path. -/
def plannerRun (st : OrchState) (summary : String) : AgentResult × OrchState :=
  let decision := plannerDecision summary
  let plan := Val.vdict [("decision", Val.vstr decision),
                         ("summary_snippet", Val.vstr (summary.take 200))]
  let st1 := auditE st "planner_decision"
  let st2 := setKey st1 "last_plan" plan
  (⟨true, [("plan", plan)], none⟩, st2)

/-- Python `plan.get(k)` (default `None`) for the executor's plan payload. -/
def planGet (p : Val) (k : String) : Val :=
  match p with
  | .vdict l => dGet l k Val.vnone
  | _ => Val.vnone

/-- Python `plan[k]` for the executor's plan payload (`none` is the `KeyError`
case). -/
def planLookup (p : Val) (k : String) : Option Val :=
  match p with
  | .vdict l => dlookup l k
  | _ => none

/-- `payload.get("idempotency_key") or str(uuid.uuid4())`: Python `or` falls
through to the fresh uuid when the payload key is absent (`None`) or an empty
(falsy) string. -/
def resolveKey (idemKey : Option String) (freshKey : String) : String :=
  match idemKey with
  | none => freshKey
  | some s => if s = "" then freshKey else s

/-- `ExecutorAgent.run({"plan": plan, "idempotency_key": key})`. `freshKey` is
the `str(uuid.uuid4())` this call would draw when the payload key is `None` or
empty; `ticketN`/`orderN` are the `random.randint` draws for ticket and order
ids. -/
def executorRun (env : ToolEnv) (freshKey : String) (ticketN orderN : Nat)
    (st : OrchState) (planV : Val) (idemKey : Option String) : AgentResult × OrchState :=
  let decision := planGet planV "decision"
  let key := resolveKey idemKey freshKey
  if truthy (getKey st ("exec_done_" ++ key) Val.vnone) then
    (⟨true, [("result", Val.vstr "already_executed"),
             ("idempotency_key", Val.vstr key)], none⟩, st)
  else if decision.eqStr "escalate" then
    match planLookup planV "summary_snippet" with
    | none =>
      (⟨false, [("result", Val.vnone)], some "KeyError: summary_snippet"⟩,
       auditE st "executor_error")
    | some sn =>
      match retryAsync (fun k => env.alert (st.alertCount + k) ("ESCALATION: " ++ pyShow sn))
          2 0.2 5 env.jitter with
      | (Except.ok _, n, _) =>
        let result := Val.vdict [("status", Val.vstr "escalated"),
                                 ("ticket_id", Val.vstr ("TKT-" ++ toString ticketN))]
        let st1 := { st with alertCount := st.alertCount + n }
        let st2 := setKey st1 ("exec_done_" ++ key) result
        let st3 := auditE st2 "executor_success"
        (⟨true, [("result", result), ("idempotency_key", Val.vstr key)], none⟩, st3)
      | (Except.error e, n, _) =>
        let st1 := { st with alertCount := st.alertCount + n }
        (⟨false, [("result", Val.vnone)], some e⟩, auditE st1 "executor_error")
  else if decision.eqStr "recommend_trade" then
    match planLookup planV "summary_snippet" with
    | none =>
      (⟨false, [("result", Val.vnone)], some "KeyError: summary_snippet"⟩,
       auditE st "executor_error")
    | some sn =>
      match retryAsync (fun k => env.alert (st.alertCount + k) ("TRADE_EXECUTE: " ++ pyShow sn))
          2 0.2 5 env.jitter with
      | (Except.ok _, n, _) =>
        let result := Val.vdict [("status", Val.vstr "trade_executed"),
                                 ("order_id", Val.vstr ("ORD-" ++ toString orderN))]
        let st1 := { st with alertCount := st.alertCount + n }
        let st2 := setKey st1 ("exec_done_" ++ key) result
        let st3 := auditE st2 "executor_success"
        (⟨true, [("result", result), ("idempotency_key", Val.vstr key)], none⟩, st3)
      | (Except.error e, n, _) =>
        let st1 := { st with alertCount := st.alertCount + n }
        (⟨false, [("result", Val.vnone)], some e⟩, auditE st1 "executor_error")
  else
    let result := Val.vdict [("status", Val.vstr "no_action")]
    let st1 := setKey st ("exec_done_" ++ key) result
    let st2 := auditE st1 "executor_success"
    (⟨true, [("result", result), ("idempotency_key", Val.vstr key)], none⟩, st2)

/-- `NotifierAgent.run({"summary", "execution_result"})` (the stored
`pending_notification` record's `ts` field, an unobserved wall-clock read, is
omitted). -/
def notifierRun (env : ToolEnv) (st : OrchState) (summary : String) (execResult : Val) :
    AgentResult × OrchState :=
  let message := "Notification: exec_result=" ++ pyShow execResult
      ++ " | summary=" ++ summary.take 200
  match retryAsync (fun k => env.alert (st.alertCount + k) message) 2 0.2 5 env.jitter with
  | (Except.ok _, n, _) =>
    let st1 := { st with alertCount := st.alertCount + n }
    let st2 := auditE st1 "notifier_sent"
    (⟨true, [("notified", Val.vbool true)], none⟩, st2)
  | (Except.error e, n, _) =>
    let st1 := { st with alertCount := st.alertCount + n }
    let st2 := auditE st1 "notifier_failed"
    let st3 := setKey st2 "pending_notification" (Val.vdict [("message", Val.vstr message)])
    (⟨false, [("notified", Val.vbool false)], some e⟩, st3)

/-! ### Orchestrator.run_flow (source lines 275–325)

`run_flow`'s `try` block awaits the five agents' `run` methods, dispatched
dynamically on `BaseAgent`. The steps are therefore a parameter: each step
takes the world and the payload fields `run_flow` passes and either returns an
`AgentResult` with the new world or raises — `Except.error (e, st)` carries
the Python exception text and the world at the point of the raise (the
`StateStore` and counters mutated before the raise persist, as in Python).
`realSteps` instantiates them with the concrete agents above, which never
raise. -/

/-- The dynamically dispatched `run` methods `run_flow` awaits. -/
structure StepFns where
  retrieve : OrchState → String → Except (String × OrchState) (AgentResult × OrchState)
  enrich : OrchState → Val → Except (String × OrchState) (AgentResult × OrchState)
  plan : OrchState → String → Except (String × OrchState) (AgentResult × OrchState)
  execute : OrchState → Val → Option String → Except (String × OrchState) (AgentResult × OrchState)
  notify : OrchState → String → Val → Except (String × OrchState) (AgentResult × OrchState)

/-- The structured result `run_flow` returns: `completed` results carry the
execution outcome, `failed` results carry the exception text. -/
structure FlowResult where
  flow_id : String
  status : String
  reason : Option String
  execution : Option Val

/-- The `try` block of `run_flow` (steps 1–5 plus the success bookkeeping);
an `Except.error` from an awaited step propagates past the remaining steps to
the `except` handler. -/
def flowTry (fns : StepFns) (flowId : String) (query : String) (idemKey : Option String)
    (st : OrchState) : Except (String × OrchState) (FlowResult × OrchState) :=
  match fns.retrieve st query with
  | .error p => .error p
  | .ok (retrRes, st1) =>
    let docsV := dGet retrRes.data "docs" (Val.vlist [])
    match fns.enrich st1 docsV with
    | .error p => .error p
    | .ok (enrRes, st2) =>
      let summary := asStr (dGet enrRes.data "summary" (Val.vstr ""))
      match fns.plan st2 summary with
      | .error p => .error p
      | .ok (planRes, st3) =>
        let planV := dGet planRes.data "plan" (Val.vdict [])
        match fns.execute st3 planV idemKey with
        | .error p => .error p
        | .ok (execRes, st4) =>
          let st5 :=
            if execRes.ok then st4
            else
              setKey (auditE st4 "execution_fallback") "manual_review"
                (Val.vdict [("flow_id", Val.vstr flowId), ("plan", planV),
                            ("error", optStrVal execRes.error)])
          let execution := dGet execRes.data "result" Val.vnone
          match fns.notify st5 summary execution with
          | .error p => .error p
          | .ok (_notifRes, st6) =>
            let st7 := auditE { st6 with flowsSucceeded := st6.flowsSucceeded + 1 }
              "flow_completed"
            .ok (⟨flowId, "completed", none, some execution⟩, st7)

/-- `Orchestrator.run_flow(query, idempotency_key)` for a drawn `flow_id`:
start bookkeeping and checkpoint, run the `try` block, and on a raise do the
`except` block (failure metrics, `flow_failed` audit, rollback to the start
checkpoint, `manual_ticket` record, failed-status result). -/
def runFlow (fns : StepFns) (flowId : String) (query : String) (idemKey : Option String)
    (st0 : OrchState) : FlowResult × OrchState :=
  let st1 := auditE { st0 with flowsStarted := st0.flowsStarted + 1 } "flow_started"
  let cpName := "start_" ++ flowId
  let st2 := doCheckpoint st1 cpName
  match flowTry fns flowId query idemKey st2 with
  | .ok (res, st') => (res, st')
  | .error (e, stE) =>
    let stF1 := auditE { stE with flowsFailed := stE.flowsFailed + 1 } "flow_failed"
    let stF2 := doRollback stF1 cpName
    let stF3 := setKey stF2 "manual_ticket"
        (Val.vdict [("flow_id", Val.vstr flowId), ("error", Val.vstr e)])
    (⟨flowId, "failed", some e, none⟩, stF3)

/-- The concrete orchestrator steps: the five agents defined above, none of
which raises. -/
def realSteps (env : ToolEnv) (now : ℚ) (freshKey : String) (ticketN orderN : Nat) : StepFns where
  retrieve st q := .ok (retrieverRun env now st q)
  enrich st d := .ok (enricherRun env st d)
  plan st s := .ok (plannerRun st s)
  execute st p k := .ok (executorRun env freshKey ticketN orderN st p k)
  notify st s e := .ok (notifierRun env st s e)

/-! ### Operation traces against one shared StateStore

Concurrent flows interleave `set`/`checkpoint`/`rollback` calls against the
one `StateStore` an orchestrator owns; an interleaving is a list of such
calls. -/

/-- One StateStore call in an interleaved trace. -/
inductive StoreOp where
  | setO (k : String) (v : Val)
  | checkpointO (n : String)
  | rollbackO (n : String)

/-- Apply one StateStore call. -/
def applyOp (s : StateStore) : StoreOp → StateStore
  | .setO k v => s.set k v
  | .checkpointO n => s.checkpoint n
  | .rollbackO n => s.rollback n

/-- Apply a trace of StateStore calls in order. -/
def applyOps (s : StateStore) (ops : List StoreOp) : StateStore :=
  ops.foldl applyOp s

/-- The checkpoint names a trace writes. -/
def cpNames (ops : List StoreOp) : List String :=
  ops.filterMap (fun op => match op with | .checkpointO n => some n | _ => none)

/-! ### Dictionary and store lemmas -/

theorem dlookup_dset_self (l : List (String × Val)) (k : String) (v : Val) :
    dlookup (dset l k v) k = some v := by
  induction l with
  | nil => simp [dset, dlookup]
  | cons hd tl ih =>
    obtain ⟨k', v'⟩ := hd
    by_cases h : k' = k
    · simp [dset, dlookup, h]
    · simp [dset, dlookup, h, ih]

theorem dlookup_dset_other (l : List (String × Val)) (k k' : String) (v : Val)
    (h : k' ≠ k) : dlookup (dset l k v) k' = dlookup l k' := by
  have hs : k ≠ k' := fun hh => h hh.symm
  induction l with
  | nil => simp [dset, dlookup, hs]
  | cons hd tl ih =>
    obtain ⟨k2, v2⟩ := hd
    by_cases h2 : k2 = k
    · subst h2
      simp [dset, dlookup, hs]
    · simp only [dset, if_neg h2]
      by_cases h3 : k2 = k'
      · simp [dlookup, h3]
      · simp [dlookup, h3, ih]

theorem clookup_cset_self (l : List (String × List (String × Val))) (k : String)
    (v : List (String × Val)) : clookup (cset l k v) k = some v := by
  induction l with
  | nil => simp [cset, clookup]
  | cons hd tl ih =>
    obtain ⟨k', v'⟩ := hd
    by_cases h : k' = k
    · simp [cset, clookup, h]
    · simp [cset, clookup, h, ih]

theorem clookup_cset_other (l : List (String × List (String × Val))) (k k' : String)
    (v : List (String × Val)) (h : k' ≠ k) : clookup (cset l k v) k' = clookup l k' := by
  have hs : k ≠ k' := fun hh => h hh.symm
  induction l with
  | nil => simp [cset, clookup, hs]
  | cons hd tl ih =>
    obtain ⟨k2, v2⟩ := hd
    by_cases h2 : k2 = k
    · subst h2
      simp [cset, clookup, hs]
    · simp only [cset, if_neg h2]
      by_cases h3 : k2 = k'
      · simp [clookup, h3]
      · simp [clookup, h3, ih]

theorem rollback_checkpoints (s : StateStore) (n : String) :
    (s.rollback n).checkpoints = s.checkpoints := by
  unfold StateStore.rollback
  cases clookup s.checkpoints n <;> rfl

theorem applySets_checkpoints (writes : List (String × Val)) (s : StateStore) :
    (writes.foldl (fun t kv => t.set kv.1 kv.2) s).checkpoints = s.checkpoints := by
  induction writes generalizing s with
  | nil => rfl
  | cons w ws ih => exact ih (s.set w.1 w.2)

theorem applyOps_checkpoint_stable (ops : List StoreOp) (s : StateStore) (n : String)
    (h : n ∉ cpNames ops) :
    clookup (applyOps s ops).checkpoints n = clookup s.checkpoints n := by
  induction ops generalizing s with
  | nil => rfl
  | cons op ops ih =>
    cases op with
    | setO k v =>
      have h' : n ∉ cpNames ops := by
        simpa [cpNames] using h
      exact ih (s.set k v) h'
    | checkpointO m =>
      have hmn : n ≠ m := by
        intro he
        exact h (by simp [cpNames, he])
      have h' : n ∉ cpNames ops := by
        intro hmem
        exact h (by simp [cpNames] at hmem ⊢; exact Or.inr hmem)
      calc clookup (applyOps (s.checkpoint m) ops).checkpoints n
          = clookup (s.checkpoint m).checkpoints n := ih (s.checkpoint m) h'
        _ = clookup s.checkpoints n := clookup_cset_other _ _ _ _ hmn
    | rollbackO m =>
      have h' : n ∉ cpNames ops := by
        simpa [cpNames] using h
      calc clookup (applyOps (s.rollback m) ops).checkpoints n
          = clookup (s.rollback m).checkpoints n := ih (s.rollback m) h'
        _ = clookup s.checkpoints n := by rw [rollback_checkpoints]

/-! ### Claim C4 -/

/-- C4: for every StateStore contents, every checkpoint name, and every
sequence of `set` operations performed after `checkpoint(name)`, a subsequent
`rollback(name)` restores exactly the key/value pairs present at checkpoint
time — the live store is wholesale-replaced by the snapshot (never merged) and
every write made after the checkpoint is discarded. -/
theorem checkpoint_rollback_restores_exactly (s : StateStore) (name : String)
    (writes : List (String × Val)) :
    ((writes.foldl (fun t kv => t.set kv.1 kv.2) (s.checkpoint name)).rollback name).store
      = s.store := by
  have hcp : (writes.foldl (fun t kv => t.set kv.1 kv.2) (s.checkpoint name)).checkpoints
      = cset s.checkpoints name s.store :=
    applySets_checkpoints writes (s.checkpoint name)
  simp only [StateStore.rollback, hcp, clookup_cset_self]

/-! ### Claim C9 -/

/-- C9 counterexample: with the store initially empty, flow A checkpoints
`start_a1b2c3d4`, then flow B commits its execution record
`exec_done_idp-2`, then flow A fails and rolls back to its start checkpoint —
and B's execution record is gone, so A's rollback does remove an execution
record that B created after A's checkpoint. -/
theorem rollback_discards_sibling_record :
    dlookup ((((StateStore.mk [] []).checkpoint "start_a1b2c3d4").set
        "exec_done_idp-2" (Val.vdict [("status", Val.vstr "no_action")])).rollback
        "start_a1b2c3d4").store "exec_done_idp-2" = none := rfl

/-- C9 (amended): for every interleaving of sibling operations (sets,
checkpoints, rollbacks) between flow A's start checkpoint and A's rollback,
provided no sibling operation checkpoints under A's name: A's rollback leaves
the checkpoint map exactly as it was (so every checkpoint flow B created
survives), and it restores the live store to A's snapshot — so an execution
record of B's survives precisely when it was already present at A's
checkpoint time; a record B wrote after A's checkpoint is discarded
(idempotency keys namespace the record keys, but rollback is not scoped by
flow, so the claimed race-freedom of execution records fails). -/
theorem rollback_namespacing_amended (s : StateStore) (nameA : String) (ops : List StoreOp)
    (h : nameA ∉ cpNames ops) :
    ((applyOps (s.checkpoint nameA) ops).rollback nameA).checkpoints
        = (applyOps (s.checkpoint nameA) ops).checkpoints
    ∧ ((applyOps (s.checkpoint nameA) ops).rollback nameA).store = s.store
    ∧ ∀ k v, dlookup s.store k = some v →
        dlookup ((applyOps (s.checkpoint nameA) ops).rollback nameA).store k = some v := by
  have h1 := rollback_checkpoints (applyOps (s.checkpoint nameA) ops) nameA
  have h2 : clookup (applyOps (s.checkpoint nameA) ops).checkpoints nameA = some s.store := by
    rw [applyOps_checkpoint_stable ops _ nameA h]
    exact clookup_cset_self _ _ _
  have h3 : ((applyOps (s.checkpoint nameA) ops).rollback nameA).store = s.store := by
    simp only [StateStore.rollback, h2]
  exact ⟨h1, h3, fun k v hv => by rw [h3]; exact hv⟩

/-- C9 (amended) witness: a concrete trace — flow A checkpoints `start_a`
over a store already holding B's earlier record `exec_done_idp-9`; then B
writes `exec_done_idp-2` and checkpoints `start_b`; A's rollback keeps the
checkpoint map intact and keeps the record that predated A's checkpoint. -/
theorem rollback_namespacing_amended_witness :
    ("start_a" ∉ cpNames [StoreOp.setO "exec_done_idp-2"
        (Val.vdict [("status", Val.vstr "no_action")]), StoreOp.checkpointO "start_b"])
    ∧ ((applyOps ((StateStore.mk [("exec_done_idp-9", Val.vstr "x")] []).checkpoint "start_a")
          [StoreOp.setO "exec_done_idp-2" (Val.vdict [("status", Val.vstr "no_action")]),
           StoreOp.checkpointO "start_b"]).rollback "start_a").checkpoints
        = (applyOps ((StateStore.mk [("exec_done_idp-9", Val.vstr "x")] []).checkpoint "start_a")
          [StoreOp.setO "exec_done_idp-2" (Val.vdict [("status", Val.vstr "no_action")]),
           StoreOp.checkpointO "start_b"]).checkpoints
    ∧ dlookup ((applyOps ((StateStore.mk [("exec_done_idp-9", Val.vstr "x")] []).checkpoint
          "start_a")
          [StoreOp.setO "exec_done_idp-2" (Val.vdict [("status", Val.vstr "no_action")]),
           StoreOp.checkpointO "start_b"]).rollback "start_a").store "exec_done_idp-9"
        = some (Val.vstr "x") := by
  have hmem : "start_a" ∉ cpNames [StoreOp.setO "exec_done_idp-2"
      (Val.vdict [("status", Val.vstr "no_action")]), StoreOp.checkpointO "start_b"] := by
    simp [cpNames]
  have hth := rollback_namespacing_amended
    (StateStore.mk [("exec_done_idp-9", Val.vstr "x")] []) "start_a"
    [StoreOp.setO "exec_done_idp-2" (Val.vdict [("status", Val.vstr "no_action")]),
     StoreOp.checkpointO "start_b"] hmem
  exact ⟨hmem, hth.1, hth.2.2 "exec_done_idp-9" (Val.vstr "x") rfl⟩

/-! ### Claim C3 -/

theorem applyFails_lt (ts : List ℚ) (c : CircuitBreaker)
    (h : c.fails + ts.length < c.fail_threshold) :
    applyFails c ts = { c with fails := c.fails + ts.length } := by
  induction ts generalizing c with
  | nil => simp [applyFails]
  | cons t ts ih =>
    have hstep : c.record_failure t = { c with fails := c.fails + 1 } := by
      unfold CircuitBreaker.record_failure
      rw [if_neg]
      simp at h
      omega
    have htail : ({ c with fails := c.fails + 1 } : CircuitBreaker).fails + ts.length
        < ({ c with fails := c.fails + 1 } : CircuitBreaker).fail_threshold := by
      simp at h ⊢
      omega
    calc applyFails c (t :: ts)
        = applyFails (c.record_failure t) ts := rfl
      _ = applyFails { c with fails := c.fails + 1 } ts := by rw [hstep]
      _ = { c with fails := c.fails + 1 + ts.length } := ih _ htail
      _ = { c with fails := c.fails + (t :: ts).length } := by
          simp [Nat.add_assoc, Nat.add_comm 1]

/-- C3: starting from a freshly reset breaker, `is_open()` is false after any
run of fewer than `fail_threshold` consecutive `record_failure()` calls,
becomes true exactly upon the `fail_threshold`-th consecutive failure (at time
`t`) and from then reads true at a time `now` precisely while
`now < t + recovery_timeout`; `is_open()` calls never change the breaker
state; `record_success()` resets the counter to zero and clears the open
timestamp; and `is_open()` is true only while `now < open_until`. -/
theorem circuit_breaker_contract (nm : String) (th : Nat) (rt : ℚ) (ts : List ℚ) (t : ℚ)
    (hth : 1 ≤ th) (hrt : 0 < rt) (ht : 0 ≤ t) (hlen : ts.length = th - 1) :
    (∀ now : ℚ, (applyFails ⟨nm, th, rt, 0, 0⟩ ts).isOpen now = false)
    ∧ (∀ now : ℚ, (applyFails ⟨nm, th, rt, 0, 0⟩ (ts ++ [t])).isOpen now
        = decide (now < t + rt))
    ∧ (∀ (c : CircuitBreaker) (checks : List ℚ), runCB c (checks.map CBOp.checkAt) = c)
    ∧ (∀ c : CircuitBreaker, c.record_success.fails = 0 ∧ c.record_success.open_until = 0
        ∧ ∀ now : ℚ, c.record_success.isOpen now = false)
    ∧ (∀ (c : CircuitBreaker) (now : ℚ), c.isOpen now = true → now < c.open_until) := by
  have hbelow : applyFails ⟨nm, th, rt, 0, 0⟩ ts = ⟨nm, th, rt, ts.length, 0⟩ := by
    have hcond : (CircuitBreaker.mk nm th rt 0 0).fails + ts.length
        < (CircuitBreaker.mk nm th rt 0 0).fail_threshold := by
      simp [hlen]
      omega
    simpa using applyFails_lt ts ⟨nm, th, rt, 0, 0⟩ hcond
  refine ⟨?_, ?_, ?_, ?_, ?_⟩
  · intro now
    rw [hbelow]
    simp [CircuitBreaker.isOpen]
  · intro now
    have happ : applyFails ⟨nm, th, rt, 0, 0⟩ (ts ++ [t])
        = (applyFails ⟨nm, th, rt, 0, 0⟩ ts).record_failure t := by
      simp [applyFails, List.foldl_append]
    have hopen : (CircuitBreaker.mk nm th rt ts.length 0).record_failure t
        = ⟨nm, th, rt, ts.length + 1, t + rt⟩ := by
      unfold CircuitBreaker.record_failure
      rw [if_pos]
      show th ≤ ts.length + 1
      omega
    have hpos : 0 < t + rt := add_pos_of_nonneg_of_pos ht hrt
    rw [happ, hbelow, hopen]
    simp [CircuitBreaker.isOpen, hpos.ne']
  · intro c checks
    induction checks with
    | nil => rfl
    | cons t' checks ih => exact ih
  · intro c
    exact ⟨rfl, rfl, fun now => by simp [CircuitBreaker.isOpen, CircuitBreaker.record_success]⟩
  · intro c now h
    simp [CircuitBreaker.isOpen] at h
    exact h.2

/-- C3 witness: the `doc_service` breaker (`fail_threshold=4`,
`recovery_timeout=20.0`): after the three consecutive failures at times 1, 2,
3 it still reads closed at time 100; the fourth consecutive failure at time 4
opens it: it reads open at time 10 and closed again at time 24, when the
recovery timeout has elapsed. -/
theorem circuit_breaker_contract_witness :
    (applyFails ⟨"doc_service", 4, 20, 0, 0⟩ [1, 2, 3]).isOpen 100 = false
    ∧ (applyFails ⟨"doc_service", 4, 20, 0, 0⟩ [1, 2, 3, 4]).isOpen 10
        = decide ((10 : ℚ) < 4 + 20)
    ∧ (applyFails ⟨"doc_service", 4, 20, 0, 0⟩ [1, 2, 3, 4]).isOpen 24
        = decide ((24 : ℚ) < 4 + 20) := by
  have hth := circuit_breaker_contract "doc_service" 4 20 [1, 2, 3] 4
    (by norm_num) (by norm_num) (by norm_num) (by norm_num)
  exact ⟨hth.1 100, hth.2.1 10, hth.2.1 24⟩

/-! ### Claim C8 -/

/-- C8: the planner has no failure path — for every summary and every world it
returns `ok=true` with no error — and its decision depends only on the summary
text: `escalate` when the lower-cased summary contains an escalation keyword
(this branch wins even when an opportunity keyword is also present),
otherwise `recommend_trade` when it contains an opportunity keyword,
otherwise the default `inform`. -/
theorem planner_decision_contract (st : OrchState) (summary : String) :
    (plannerRun st summary).1.ok = true
    ∧ (plannerRun st summary).1.error = none
    ∧ (plannerRun st summary).1.data
        = [("plan", Val.vdict [("decision", Val.vstr (plannerDecision summary)),
                               ("summary_snippet", Val.vstr (summary.take 200))])]
    ∧ (escalationWords.any (fun w => strHasSub (pyLower summary) w) = true →
        plannerDecision summary = "escalate")
    ∧ (escalationWords.any (fun w => strHasSub (pyLower summary) w) = false →
        opportunityWords.any (fun w => strHasSub (pyLower summary) w) = true →
        plannerDecision summary = "recommend_trade")
    ∧ (escalationWords.any (fun w => strHasSub (pyLower summary) w) = false →
        opportunityWords.any (fun w => strHasSub (pyLower summary) w) = false →
        plannerDecision summary = "inform") := by
  refine ⟨rfl, rfl, rfl, ?_, ?_, ?_⟩
  · intro h
    simp [plannerDecision, h]
  · intro h1 h2
    simp [plannerDecision, h1, h2]
  · intro h1 h2
    simp [plannerDecision, h1, h2]

/-- C8 witness: the summary `"fraud alert: buy opportunity"` contains both an
escalation keyword and an opportunity keyword, and the planner decides
`escalate` with `ok=true`. -/
theorem planner_decision_contract_witness :
    escalationWords.any (fun w => strHasSub (pyLower "fraud alert: buy opportunity") w) = true
    ∧ opportunityWords.any (fun w => strHasSub (pyLower "fraud alert: buy opportunity") w) = true
    ∧ plannerDecision "fraud alert: buy opportunity" = "escalate"
    ∧ (plannerRun initState "fraud alert: buy opportunity").1.ok = true := by
  exact ⟨rfl, rfl,
    (planner_decision_contract initState "fraud alert: buy opportunity").2.2.2.1 rfl,
    (planner_decision_contract initState "fraud alert: buy opportunity").1⟩

/-! ### retry_async lemmas -/

theorem retryGo_calls_le (f : Nat → Except String α) (iB mB : ℚ) (jit : Nat → ℚ) :
    ∀ left attempt, (retryGo f iB mB jit attempt left).2.1 ≤ left + 1 := by
  intro left
  induction left with
  | zero => intro attempt; cases h : f attempt <;> simp [retryGo, h]
  | succ l ih =>
    intro attempt
    cases h : f attempt with
    | ok a => simp [retryGo, h]
    | error e =>
      have := ih (attempt + 1)
      simp [retryGo, h]
      omega

theorem retryGo_all_fail (f : Nat → Except String α) (iB mB : ℚ) (jit : Nat → ℚ) :
    ∀ left attempt,
      (∀ j, attempt ≤ j → j ≤ attempt + left → isErr (f j) = true) →
      (retryGo f iB mB jit attempt left).1 = f (attempt + left)
      ∧ (retryGo f iB mB jit attempt left).2.1 = left + 1 := by
  intro left
  induction left with
  | zero =>
    intro attempt h
    have ha := h attempt (le_refl _) (by omega)
    cases hf : f attempt with
    | ok a => rw [hf] at ha; simp [isErr] at ha
    | error e => simp [retryGo, hf]
  | succ l ih =>
    intro attempt h
    have ha := h attempt (le_refl _) (by omega)
    cases hf : f attempt with
    | ok a => rw [hf] at ha; simp [isErr] at ha
    | error e =>
      have hrec := ih (attempt + 1) (fun j hj1 hj2 => h j (by omega) (by omega))
      have hidx : attempt + 1 + l = attempt + (l + 1) := by omega
      rw [hidx] at hrec
      simp [retryGo, hf, hrec.1, hrec.2]

theorem retryGo_first_success (f : Nat → Except String α) (iB mB : ℚ) (jit : Nat → ℚ) :
    ∀ left attempt m, m ≤ left →
      (∀ j, attempt ≤ j → j < attempt + m → isErr (f j) = true) →
      isOk (f (attempt + m)) = true →
      (retryGo f iB mB jit attempt left).1 = f (attempt + m)
      ∧ (retryGo f iB mB jit attempt left).2.1 = m + 1 := by
  intro left
  induction left with
  | zero =>
    intro attempt m hm herr hok
    interval_cases m
    simp only [Nat.add_zero] at hok
    cases hf : f attempt with
    | ok a => simp [retryGo, hf]
    | error e => rw [hf] at hok; simp [isOk] at hok
  | succ l ih =>
    intro attempt m hm herr hok
    cases m with
    | zero =>
      simp only [Nat.add_zero] at hok
      cases hf : f attempt with
      | ok a => simp [retryGo, hf]
      | error e => rw [hf] at hok; simp [isOk] at hok
    | succ m' =>
      have ha := herr attempt (le_refl _) (by omega)
      cases hf : f attempt with
      | ok a => rw [hf] at ha; simp [isErr] at ha
      | error e =>
        have hok' : isOk (f (attempt + 1 + m')) = true := by
          have hidx : attempt + 1 + m' = attempt + (m' + 1) := by omega
          rw [hidx]; exact hok
        have hrec := ih (attempt + 1) m' (by omega)
          (fun j hj1 hj2 => herr j (by omega) (by omega)) hok'
        have hidx : attempt + 1 + m' = attempt + (m' + 1) := by omega
        rw [hidx] at hrec
        simp [retryGo, hf, hrec.1, hrec.2]

theorem retryGo_sleeps (f : Nat → Except String α) (iB mB : ℚ) (jit : Nat → ℚ) :
    ∀ left attempt i (h : i < (retryGo f iB mB jit attempt left).2.2.length),
      (retryGo f iB mB jit attempt left).2.2.get ⟨i, h⟩
        = min mB (iB * 2 ^ (attempt + i) * jit (attempt + i + 1)) := by
  intro left
  induction left with
  | zero =>
    intro attempt i h
    exfalso
    cases hf : f attempt <;> simp [retryGo, hf] at h
  | succ l ih =>
    intro attempt i h
    cases hf : f attempt with
    | ok a =>
      exfalso
      simp [retryGo, hf] at h
    | error e =>
      cases i with
      | zero => simp [retryGo, hf]
      | succ i' =>
        have h' : i' < (retryGo f iB mB jit (attempt + 1) l).2.2.length := by
          have := h
          simp [retryGo, hf] at this
          omega
        have hrec := ih (attempt + 1) i' h'
        have hidx1 : attempt + 1 + i' = attempt + (i' + 1) := by omega
        rw [hidx1] at hrec
        simpa [retryGo, hf] using hrec

/-! ### Claim C5 -/

/-- C5: `retry_async` invokes the wrapped operation at most `retries + 1`
times; if the `k`-th invocation is the first to succeed (`k ≤ retries`), the
call returns that invocation's result immediately after `k + 1` invocations
with no further retry; and if every allowed invocation fails, it propagates
the failure of the last invocation after exactly `retries + 1` invocations. -/
theorem retry_async_contract (f : Nat → Except String α) (retries : Nat) (iB mB : ℚ)
    (jit : Nat → ℚ) :
    (retryAsync f retries iB mB jit).2.1 ≤ retries + 1
    ∧ (∀ k, k ≤ retries → (∀ j, j < k → isErr (f j) = true) → isOk (f k) = true →
        (retryAsync f retries iB mB jit).1 = f k
        ∧ (retryAsync f retries iB mB jit).2.1 = k + 1)
    ∧ ((∀ j, j ≤ retries → isErr (f j) = true) →
        (retryAsync f retries iB mB jit).1 = f retries
        ∧ (retryAsync f retries iB mB jit).2.1 = retries + 1) := by
  refine ⟨retryGo_calls_le f iB mB jit retries 0, ?_, ?_⟩
  · intro k hk herr hok
    have := retryGo_first_success f iB mB jit retries 0 k hk
      (fun j hj1 hj2 => herr j (by omega)) (by simpa using hok)
    simpa [retryAsync] using this
  · intro herr
    have := retryGo_all_fail f iB mB jit retries 0
      (fun j hj1 hj2 => herr j (by omega))
    simpa [retryAsync] using this

/-- A concrete wrapped operation for exercising `retry_async`: fails on its
first two invocations, succeeds from the third on. -/
def probeOp : Nat → Except String Nat :=
  fun j => if j < 2 then .error "boom" else .ok 7

/-- C5 witness: with `retries = 3`, `probeOp` succeeds on its third invocation
(`k = 2`): `retry_async` returns `ok 7` after exactly 3 invocations, within
the `retries + 1 = 4` bound. -/
theorem retry_async_contract_witness :
    (retryAsync probeOp 3 1 5 (fun _ => 1)).1 = Except.ok 7
    ∧ (retryAsync probeOp 3 1 5 (fun _ => 1)).2.1 = 3
    ∧ (retryAsync probeOp 3 1 5 (fun _ => 1)).2.1 ≤ 4 := by
  have hth := (retry_async_contract probeOp 3 1 5 (fun _ => 1)).2.1 2
    (by decide) (by decide) (by decide)
  exact ⟨hth.1, hth.2, (retry_async_contract probeOp 3 1 5 (fun _ => 1)).1⟩

/-! ### Claim C6 -/

theorem backoff_step_mono (mB c j1 j2 : ℚ) (hc : 0 ≤ c) (h1 : j1 < 11/10)
    (h2 : 9/10 ≤ j2) : min mB (c * j1) ≤ min mB (c * (2 * j2)) := by
  have hmul : c * j1 ≤ c * (2 * j2) := by nlinarith
  exact min_le_min (le_refl mB) hmul

/-- C6: with `initial_backoff > 0` and `max_backoff > 0` and every jitter draw
in `[0.9, 1.1)`, the sleep recorded after the `k`-th failed attempt (index
`i = k - 1` in the sleep trace) equals
`min(max_backoff, initial_backoff * 2 ^ (k-1) * jitter_k)`, consecutive
sleeps are monotonically non-decreasing, and every sleep is capped at
`max_backoff`. -/
theorem retry_backoff_contract (f : Nat → Except String α) (retries : Nat) (iB mB : ℚ)
    (jit : Nat → ℚ) (hiB : 0 < iB) (_hmB : 0 < mB)
    (hjlo : ∀ k, 9/10 ≤ jit k) (hjhi : ∀ k, jit k < 11/10) :
    (∀ i (h : i < (retryAsync f retries iB mB jit).2.2.length),
        (retryAsync f retries iB mB jit).2.2.get ⟨i, h⟩
          = min mB (iB * 2 ^ i * jit (i + 1)))
    ∧ (∀ i (h1 : i < (retryAsync f retries iB mB jit).2.2.length)
        (h2 : i + 1 < (retryAsync f retries iB mB jit).2.2.length),
        (retryAsync f retries iB mB jit).2.2.get ⟨i, h1⟩
          ≤ (retryAsync f retries iB mB jit).2.2.get ⟨i + 1, h2⟩)
    ∧ (∀ i (h : i < (retryAsync f retries iB mB jit).2.2.length),
        (retryAsync f retries iB mB jit).2.2.get ⟨i, h⟩ ≤ mB) := by
  have hform : ∀ i (h : i < (retryAsync f retries iB mB jit).2.2.length),
      (retryAsync f retries iB mB jit).2.2.get ⟨i, h⟩
        = min mB (iB * 2 ^ i * jit (i + 1)) := by
    intro i h
    simpa using retryGo_sleeps f iB mB jit retries 0 i h
  refine ⟨hform, ?_, ?_⟩
  · intro i h1 h2
    rw [hform i h1, hform (i + 1) h2]
    have hc : (0 : ℚ) ≤ iB * 2 ^ i := by positivity
    have hrw1 : iB * 2 ^ i * jit (i + 1) = (iB * 2 ^ i) * jit (i + 1) := by ring
    have hrw2 : iB * 2 ^ (i + 1) * jit (i + 1 + 1) = (iB * 2 ^ i) * (2 * jit (i + 1 + 1)) := by
      ring
    rw [hrw1, hrw2]
    exact backoff_step_mono mB (iB * 2 ^ i) (jit (i + 1)) (jit (i + 1 + 1)) hc
      (hjhi (i + 1)) (hjlo (i + 1 + 1))
  · intro i h
    rw [hform i h]
    exact min_le_left _ _

/-- C6 witness: an always-failing operation with `retries = 3`,
`initial_backoff = 1`, `max_backoff = 5` and all jitter draws equal to 1
records three sleeps; the first equals the formula value `min(5, 1 * 2^0 * 1)`,
and the trace is non-decreasing and capped at 5 at each adjacent pair. -/
theorem retry_backoff_contract_witness :
    (retryAsync (fun _ => (Except.error "down" : Except String Nat)) 3 1 5
        (fun _ => 1)).2.2.get ⟨0, by decide⟩ = min 5 (1 * 2 ^ 0 * 1)
    ∧ (retryAsync (fun _ => (Except.error "down" : Except String Nat)) 3 1 5
        (fun _ => 1)).2.2.get ⟨0, by decide⟩
      ≤ (retryAsync (fun _ => (Except.error "down" : Except String Nat)) 3 1 5
        (fun _ => 1)).2.2.get ⟨1, by decide⟩
    ∧ (retryAsync (fun _ => (Except.error "down" : Except String Nat)) 3 1 5
        (fun _ => 1)).2.2.get ⟨2, by decide⟩ ≤ 5 := by
  have hth := retry_backoff_contract (fun _ => (Except.error "down" : Except String Nat))
    3 1 5 (fun _ => 1) (by norm_num) (by norm_num)
    (fun k => by norm_num) (fun k => by norm_num)
  exact ⟨hth.1 0 (by decide), hth.2.1 0 (by decide) (by decide), hth.2.2 2 (by decide)⟩

/-! ### Claims C1 and C10 (ExecutorAgent) -/

theorem retryGo_calls_pos (f : Nat → Except String α) (iB mB : ℚ) (jit : Nat → ℚ) :
    ∀ left attempt, 1 ≤ (retryGo f iB mB jit attempt left).2.1 := by
  intro left attempt
  cases left <;> cases h : f attempt <;> simp [retryGo, h]

/-- A tool environment in which every external tool call succeeds. -/
def okToolEnv : ToolEnv :=
  ⟨fun _ _ => .ok ["Doc(q)#1"], fun _ _ => .ok "LLM_SUMMARY: ok", fun _ _ => .ok true, fun _ => 1⟩

/-- The plan the planner emits for an uneventful summary: decision `inform`. -/
def planInform : Val :=
  Val.vdict [("decision", Val.vstr "inform"), ("summary_snippet", Val.vstr "")]

/-- The plan the planner emits for an alarming summary: decision `escalate`. -/
def planEscalate : Val :=
  Val.vdict [("decision", Val.vstr "escalate"), ("summary_snippet", Val.vstr "fraud alert")]

theorem executorRun_ok_record (env : ToolEnv) (fk : String) (tN oN : Nat) (st : OrchState)
    (planV : Val) (key : String) (hk : key ≠ "")
    (hok : (executorRun env fk tN oN st planV (some key)).1.ok = true) :
    truthy (getKey (executorRun env fk tN oN st planV (some key)).2
      ("exec_done_" ++ key) Val.vnone) = true := by
  by_cases h1 : truthy (getKey st ("exec_done_" ++ key) Val.vnone) = true
  · simp [executorRun, resolveKey, hk, h1]
  · rw [Bool.not_eq_true] at h1
    by_cases h2 : (planGet planV "decision").eqStr "escalate" = true
    · cases hsn : planLookup planV "summary_snippet" with
      | none =>
        exfalso
        simp [executorRun, resolveKey, hk, h1, h2, hsn] at hok
      | some sn =>
        rcases hr : retryAsync (fun k => env.alert (st.alertCount + k)
            ("ESCALATION: " ++ pyShow sn)) 2 0.2 5 env.jitter with ⟨res, n, ss⟩
        cases res with
        | ok b =>
          simp [executorRun, resolveKey, hk, h1, h2, hsn, hr]
          simp [getKey, StateStore.get, setKey, StateStore.set, auditE,
            dlookup_dset_self, truthy]
        | error e =>
          exfalso
          simp [executorRun, resolveKey, hk, h1, h2, hsn, hr] at hok
    · rw [Bool.not_eq_true] at h2
      by_cases h3 : (planGet planV "decision").eqStr "recommend_trade" = true
      · cases hsn : planLookup planV "summary_snippet" with
        | none =>
          exfalso
          simp [executorRun, resolveKey, hk, h1, h2, h3, hsn] at hok
        | some sn =>
          rcases hr : retryAsync (fun k => env.alert (st.alertCount + k)
              ("TRADE_EXECUTE: " ++ pyShow sn)) 2 0.2 5 env.jitter with ⟨res, n, ss⟩
          cases res with
          | ok b =>
            simp [executorRun, resolveKey, hk, h1, h2, h3, hsn, hr]
            simp [getKey, StateStore.get, setKey, StateStore.set, auditE,
              dlookup_dset_self, truthy]
          | error e =>
            exfalso
            simp [executorRun, resolveKey, hk, h1, h2, h3, hsn, hr] at hok
      · rw [Bool.not_eq_true] at h3
        simp [executorRun, resolveKey, hk, h1, h2, h3]
        simp [getKey, StateStore.get, setKey, StateStore.set, auditE,
          dlookup_dset_self, truthy]

/-- C1 counterexample: same plan (`inform`) and same idempotency key
`"idem-1"` on both calls, but the two calls' outputs are not identical: the
first call returns the freshly computed execution record
`{"status": "no_action"}` in its `result` field, while the replayed second
call returns the sentinel string `"already_executed"` there — not the stored
record, and a different `AgentResult` than the first call's. -/
theorem executor_replay_not_identical :
    dGet (executorRun okToolEnv "uuid-2" 1111 22222
        (executorRun okToolEnv "uuid-1" 1234 56789 initState planInform (some "idem-1")).2
        planInform (some "idem-1")).1.data "result" Val.vnone = Val.vstr "already_executed"
    ∧ dGet (executorRun okToolEnv "uuid-1" 1234 56789 initState planInform
        (some "idem-1")).1.data "result" Val.vnone
        = Val.vdict [("status", Val.vstr "no_action")]
    ∧ Val.vstr "already_executed" ≠ Val.vdict [("status", Val.vstr "no_action")] :=
  ⟨rfl, rfl, fun h => Val.noConfusion h⟩

/-- C1 (amended): for every plan and every non-empty idempotency key, if the
first Executor call returns `ok=true` (committing an execution record), then a
second call with the same key and plan — under any tool environment and any
randomness — returns `ok=true` with `result` the sentinel string
`"already_executed"` (not the first call's stored record, so the two outputs
differ in `result`) and leaves the world untouched: no state change, no audit
event, and in particular zero side-effecting tool invocations during the
replay, so the tool is invoked only during the first call. -/
theorem executor_idempotent_replay (env env' : ToolEnv) (fk fk' : String)
    (tN oN tN' oN' : Nat) (st : OrchState) (planV : Val) (key : String) (hk : key ≠ "")
    (hok : (executorRun env fk tN oN st planV (some key)).1.ok = true) :
    executorRun env' fk' tN' oN' (executorRun env fk tN oN st planV (some key)).2
        planV (some key)
      = (⟨true, [("result", Val.vstr "already_executed"),
                 ("idempotency_key", Val.vstr key)], none⟩,
         (executorRun env fk tN oN st planV (some key)).2) := by
  have hrec := executorRun_ok_record env fk tN oN st planV key hk hok
  set st1 := (executorRun env fk tN oN st planV (some key)).2 with hst1
  simp [executorRun, resolveKey, hk, hrec]

/-- C1 (amended) witness: the concrete replay — `inform` plan, key
`"idem-1"`, all tools succeeding — returns the sentinel result and the
unchanged world. -/
theorem executor_idempotent_replay_witness :
    ("idem-1" : String) ≠ ""
    ∧ (executorRun okToolEnv "uuid-1" 1234 56789 initState planInform
        (some "idem-1")).1.ok = true
    ∧ executorRun okToolEnv "uuid-2" 1111 22222
        (executorRun okToolEnv "uuid-1" 1234 56789 initState planInform (some "idem-1")).2
        planInform (some "idem-1")
      = (⟨true, [("result", Val.vstr "already_executed"),
                 ("idempotency_key", Val.vstr "idem-1")], none⟩,
         (executorRun okToolEnv "uuid-1" 1234 56789 initState planInform
           (some "idem-1")).2) := by
  refine ⟨by decide, rfl, ?_⟩
  exact executor_idempotent_replay okToolEnv okToolEnv "uuid-1" "uuid-2" 1234 56789 1111 22222
    initState planInform "idem-1" (by decide) rfl

/-- C10: when the Executor payload carries no idempotency key (or `None` or
the empty string), the call uses a freshly drawn uuid; provided that uuid is
fresh (no `exec_done_` record under it), the stored-record check does not
match, and for a side-effecting plan (`escalate` with a snippet) the
side-effecting tool is invoked at least once and the call's `result` is a real
execution outcome, never `"already_executed"` — so at-most-once execution
holds only when the caller supplies a stable non-empty idempotency key. -/
theorem executor_fresh_key_reexecutes (env : ToolEnv) (fk : String) (tN oN : Nat)
    (st : OrchState) (planV : Val) (idemKey : Option String) (sn : Val)
    (hempty : idemKey = none ∨ idemKey = some "")
    (hfresh : truthy (getKey st ("exec_done_" ++ fk) Val.vnone) = false)
    (hdec : (planGet planV "decision").eqStr "escalate" = true)
    (hsn : planLookup planV "summary_snippet" = some sn) :
    st.alertCount + 1 ≤ (executorRun env fk tN oN st planV idemKey).2.alertCount
    ∧ dGet (executorRun env fk tN oN st planV idemKey).1.data "result" Val.vnone
        ≠ Val.vstr "already_executed" := by
  have hkey : resolveKey idemKey fk = fk := by
    rcases hempty with h | h <;> simp [resolveKey, h]
  rcases hr : retryAsync (fun k => env.alert (st.alertCount + k)
      ("ESCALATION: " ++ pyShow sn)) 2 0.2 5 env.jitter with ⟨res, n, ss⟩
  have hn : 1 ≤ n := by
    have := retryGo_calls_pos (fun k => env.alert (st.alertCount + k)
      ("ESCALATION: " ++ pyShow sn)) 0.2 5 env.jitter 2 0
    rw [retryAsync] at hr
    rw [hr] at this
    exact this
  cases res with
  | ok b =>
    constructor
    · simp [executorRun, hkey, hfresh, hdec, hsn, hr, setKey, auditE]
      exact hn
    · simp [executorRun, hkey, hfresh, hdec, hsn, hr, dGet, dlookup]
  | error e =>
    constructor
    · simp [executorRun, hkey, hfresh, hdec, hsn, hr, auditE]
      exact hn
    · simp [executorRun, hkey, hfresh, hdec, hsn, hr, dGet, dlookup]

/-- C10 witness: a payload with no idempotency key, a fresh uuid `"uuid-9"`,
the empty initial store, and an `escalate` plan: the alert tool is invoked
(the alert cursor advances past 0) and the result is not
`"already_executed"`. -/
theorem executor_fresh_key_reexecutes_witness :
    initState.alertCount + 1
      ≤ (executorRun okToolEnv "uuid-9" 42 43 initState planEscalate none).2.alertCount
    ∧ dGet (executorRun okToolEnv "uuid-9" 42 43 initState planEscalate
          none).1.data "result" Val.vnone
        ≠ Val.vstr "already_executed" :=
  executor_fresh_key_reexecutes okToolEnv "uuid-9" 42 43 initState planEscalate none
    (Val.vstr "fraud alert") (Or.inl rfl) rfl rfl rfl

/-! ### Claim C2 -/

theorem flowTry_cases (fns : StepFns) (flowId query : String) (idemKey : Option String)
    (st : OrchState) :
    (∃ p, flowTry fns flowId query idemKey st = .error p)
    ∨ ∃ exec stOut, flowTry fns flowId query idemKey st
        = .ok (⟨flowId, "completed", none, some exec⟩, stOut) := by
  unfold flowTry
  split
  · exact Or.inl ⟨_, rfl⟩
  · dsimp only
    split
    · exact Or.inl ⟨_, rfl⟩
    · split
      · exact Or.inl ⟨_, rfl⟩
      · split
        · exact Or.inl ⟨_, rfl⟩
        · split
          · exact Or.inl ⟨_, rfl⟩
          · exact Or.inr ⟨_, _, rfl⟩

theorem flowTry_ok_status (fns : StepFns) (flowId query : String) (idemKey : Option String)
    (st : OrchState) (res : FlowResult) (stOut : OrchState)
    (h : flowTry fns flowId query idemKey st = .ok (res, stOut)) :
    res.status = "completed" := by
  rcases flowTry_cases fns flowId query idemKey st with ⟨p, hp⟩ | ⟨exec, stO, hq⟩
  · rw [hp] at h
    exact Except.noConfusion h
  · rw [hq] at h
    injection h with hpair
    injection hpair with hres hst
    rw [← hres]

/-- C2: `run_flow` always hands its caller a structured result whose status is
`completed` or `failed` — never a raw exception — and whenever the `try` block
raises at any point (exception text `e`, world `stE` at the raise), provided
the flow's start checkpoint is still intact in `stE` (no agent writes
checkpoints, so it always is), `run_flow` returns the failed-status result
carrying `e`, rolls the StateStore back to the snapshot taken at this flow's
start, records the `manual_ticket` on top of it, and emits a `flow_failed`
audit event. -/
theorem run_flow_failure_contract (fns : StepFns) (flowId query : String)
    (idemKey : Option String) (st0 : OrchState) :
    ((runFlow fns flowId query idemKey st0).1.status = "completed"
      ∨ (runFlow fns flowId query idemKey st0).1.status = "failed")
    ∧ ∀ e stE,
        flowTry fns flowId query idemKey
            (doCheckpoint (auditE { st0 with flowsStarted := st0.flowsStarted + 1 }
              "flow_started") ("start_" ++ flowId)) = .error (e, stE) →
        clookup stE.state.checkpoints ("start_" ++ flowId) = some st0.state.store →
        (runFlow fns flowId query idemKey st0).1 = ⟨flowId, "failed", some e, none⟩
        ∧ (runFlow fns flowId query idemKey st0).2.state.store
            = dset st0.state.store "manual_ticket"
                (Val.vdict [("flow_id", Val.vstr flowId), ("error", Val.vstr e)])
        ∧ "flow_failed" ∈ (runFlow fns flowId query idemKey st0).2.auditEvents := by
  constructor
  · cases hc : flowTry fns flowId query idemKey
        (doCheckpoint (auditE { st0 with flowsStarted := st0.flowsStarted + 1 }
          "flow_started") ("start_" ++ flowId)) with
    | error p =>
      right
      obtain ⟨e, stE⟩ := p
      simp [runFlow, hc]
    | ok pr =>
      left
      obtain ⟨res, stOut⟩ := pr
      have hst := flowTry_ok_status fns flowId query idemKey _ res stOut hc
      simp [runFlow, hc, hst]
  · intro e stE h hcp
    refine ⟨?_, ?_, ?_⟩
    · simp [runFlow, h]
    · simp [runFlow, h]
      simp [doRollback, hcp, auditE, StateStore.rollback, setKey, StateStore.set]
    · simp [runFlow, h]
      simp [doRollback, hcp, auditE, setKey, StateStore.set]

/-- The dynamically dispatched default `BaseAgent.run`, which raises
`NotImplementedError`: a pipeline whose every step raises. -/
def raisingSteps : StepFns :=
  ⟨fun st _ => .error ("NotImplementedError", st),
   fun st _ => .error ("NotImplementedError", st),
   fun st _ => .error ("NotImplementedError", st),
   fun st _ _ => .error ("NotImplementedError", st),
   fun st _ _ => .error ("NotImplementedError", st)⟩

/-- C2 witness: running a flow whose first awaited step raises
`NotImplementedError` over the fresh orchestrator world: the exception is
caught, the caller receives the structured failed result, the store ends as
the rolled-back (empty) snapshot plus the `manual_ticket` record, and
`flow_failed` is audited. -/
theorem run_flow_failure_contract_witness :
    (runFlow raisingSteps "f1" "q" none initState).1
        = ⟨"f1", "failed", some "NotImplementedError", none⟩
    ∧ (runFlow raisingSteps "f1" "q" none initState).2.state.store
        = dset initState.state.store "manual_ticket"
            (Val.vdict [("flow_id", Val.vstr "f1"),
                        ("error", Val.vstr "NotImplementedError")])
    ∧ "flow_failed" ∈ (runFlow raisingSteps "f1" "q" none initState).2.auditEvents := by
  exact (run_flow_failure_contract raisingSteps "f1" "q" none initState).2
    "NotImplementedError"
    (doCheckpoint (auditE { initState with flowsStarted := initState.flowsStarted + 1 }
      "flow_started") ("start_" ++ "f1")) rfl rfl

/-! ### Claim C7 -/

/-- The world just after `run_flow`'s start bookkeeping: metrics and
`flow_started` audit, then the start checkpoint. -/
def flowPre (st0 : OrchState) (flowId : String) : OrchState :=
  doCheckpoint (auditE { st0 with flowsStarted := st0.flowsStarted + 1 } "flow_started")
    ("start_" ++ flowId)

theorem flowTry_real_ok (env : ToolEnv) (now : ℚ) (fk : String) (tN oN : Nat)
    (flowId query : String) (idemKey : Option String) (st : OrchState) :
    ∃ exec stOut, flowTry (realSteps env now fk tN oN) flowId query idemKey st
      = .ok (⟨flowId, "completed", none, some exec⟩, stOut) := by
  simp only [flowTry, realSteps]
  exact ⟨_, _, rfl⟩

/-- C7: in a flow whose underlying fetch fails on every retried attempt, with
no cached documents in the store and the document circuit breaker closed: the
Retriever returns `ok=false` with empty docs (fallback), the Enricher on the
empty docs value returns `ok=false` with error `no_docs` (and no `summary`
field, so the orchestrator extracts `summary=""`), the Planner on `""`
decides the default `inform`, and `run_flow` still returns status
`"completed"`, not `"failed"` — an agent's `ok=false` never aborts the
pipeline. -/
theorem flow_scenario_b_degraded_completes (env : ToolEnv) (now : ℚ) (fk : String)
    (tN oN : Nat) (flowId query : String) (idemKey : Option String) (st0 : OrchState)
    (hfetch : ∀ k, isErr (env.fetch k query) = true)
    (hnocache : dlookup st0.state.store "cached_docs" = none)
    (hclosed : st0.cb.isOpen now = false) :
    (retrieverRun env now (flowPre st0 flowId) query).1.ok = false
    ∧ dGet (retrieverRun env now (flowPre st0 flowId) query).1.data "docs" (Val.vlist [])
        = Val.vlist []
    ∧ (enricherRun env (retrieverRun env now (flowPre st0 flowId) query).2 (Val.vlist [])).1
        = ⟨false, [("enriched", Val.vlist [])], some "no_docs"⟩
    ∧ asStr (dGet (⟨false, [("enriched", Val.vlist [])], some "no_docs"⟩ : AgentResult).data
        "summary" (Val.vstr "")) = ""
    ∧ plannerDecision "" = "inform"
    ∧ (runFlow (realSteps env now fk tN oN) flowId query idemKey st0).1.status
        = "completed" := by
  have hopen : (flowPre st0 flowId).cb.isOpen now = false := hclosed
  have hnc : dlookup (flowPre st0 flowId).state.store "cached_docs" = none := hnocache
  rcases hra : retryAsync (fun k => env.fetch ((flowPre st0 flowId).fetchCount + k) query)
      3 0.2 5 env.jitter with ⟨res, n, ss⟩
  have hra' : retryGo (fun k => env.fetch ((flowPre st0 flowId).fetchCount + k) query)
      0.2 5 env.jitter 0 3 = (res, n, ss) := hra
  have hall := retryGo_all_fail
    (fun k => env.fetch ((flowPre st0 flowId).fetchCount + k) query)
    0.2 5 env.jitter 3 0 (fun j _ _ => hfetch _)
  have hres : res = env.fetch ((flowPre st0 flowId).fetchCount + 3) query := by
    have h1 := hall.1
    rw [hra'] at h1
    simpa using h1
  cases hf : env.fetch ((flowPre st0 flowId).fetchCount + 3) query with
  | ok docs =>
    exfalso
    have hc := hfetch ((flowPre st0 flowId).fetchCount + 3)
    rw [hf] at hc
    simp [isErr] at hc
  | error e =>
    rw [hf] at hres
    subst hres
    refine ⟨?_, ?_, rfl, rfl, rfl, ?_⟩
    · simp [retrieverRun, hopen, hra]
    · simp [retrieverRun, hopen, hra, getKey, StateStore.get, auditE, dGet, dlookup, hnc]
    · obtain ⟨exec, stOut, hok⟩ := flowTry_real_ok env now fk tN oN flowId query idemKey
        (flowPre st0 flowId)
      simp only [flowPre] at hok
      simp [runFlow, hok]

/-- Tools for the degraded scenario: the document fetch always fails, the
LLM and alert tools succeed. -/
def downFetchEnv : ToolEnv :=
  ⟨fun _ _ => .error "document service unavailable",
   fun _ _ => .ok "LLM_SUMMARY: ok", fun _ _ => .ok true, fun _ => 1⟩

/-- C7 witness: with the always-failing fetch, an empty initial store and the
fresh (closed) breaker, the concrete degraded flow shows all five claimed
behaviors and completes. -/
theorem flow_scenario_b_witness :
    (retrieverRun downFetchEnv 0 (flowPre initState "f2") "q2").1.ok = false
    ∧ dGet (retrieverRun downFetchEnv 0 (flowPre initState "f2") "q2").1.data "docs"
        (Val.vlist []) = Val.vlist []
    ∧ (enricherRun downFetchEnv (retrieverRun downFetchEnv 0 (flowPre initState "f2")
        "q2").2 (Val.vlist [])).1
        = ⟨false, [("enriched", Val.vlist [])], some "no_docs"⟩
    ∧ plannerDecision "" = "inform"
    ∧ (runFlow (realSteps downFetchEnv 0 "uuid-7" 7 8) "f2" "q2" (some "idp-7")
        initState).1.status = "completed" := by
  have hth := flow_scenario_b_degraded_completes downFetchEnv 0 "uuid-7" 7 8 "f2" "q2"
    (some "idp-7") initState (fun k => rfl) rfl rfl
  exact ⟨hth.1, hth.2.1, hth.2.2.1, hth.2.2.2.2.1, hth.2.2.2.2.2⟩

end DayThree
